import Mathlib

/-!
Shallow embedding of the currency-converter core
(src/converter_core.py, mirrored by src/converter.py) in Lean 4.

Numbers (amounts, rates) are modelled as rationals; JSON values as an
inductive; the filesystem state of the history file as an inductive;
the remote rate service as an oracle in an environment record.
-/

/-- A conversion record, the dictionary built in
CurrencyConverter.convert_currency (converter_core.py lines 123-130 and
139-146): base, target, amount, converted, rate, timestamp. -/
structure ConversionRecord where
  base : String
  target : String
  amount : ℚ
  converted : ℚ
  rate : ℚ
  timestamp : String
deriving DecidableEq, Repr

/-- JSON values, as produced by json.load / consumed by json.dump. -/
inductive Json where
  | str (s : String)
  | num (q : ℚ)
  | bool (b : Bool)
  | arr (xs : List Json)
  | obj (fields : List (String × Json))
deriving Repr

/-- State of the history file on disk, as _load_history distinguishes it:
absent (os.path.exists false), text-decodable content that does not parse
as JSON (json.JSONDecodeError), an IO failure on open or read (IOError),
content whose bytes are not decodable in the text encoding of the
text-mode open (UnicodeDecodeError out of the read inside json.load),
or successfully parsed JSON. -/
inductive FileState where
  | missing
  | notJson
  | ioError
  | undecodable
  | json (v : Json)
deriving Repr

/-- Exception escaping _load_history: the UnicodeDecodeError raised when
the file bytes cannot be decoded, a ValueError subclass that the except
clause (json.JSONDecodeError, IOError) does not catch. -/
inductive LoadException where
  | unicodeDecodeError
deriving DecidableEq, Repr

/-- The empty history value returned by _load_history on the failure
paths, Python value: a dict with key conversions mapping to an empty
list. -/
def emptyHistoryJson : Json :=
  Json.obj [("conversions", Json.arr [])]

/-- CurrencyConverter._load_history (converter_core.py lines 15-23):
if the file does not exist, return the empty history; if opening or
parsing raises JSONDecodeError or IOError, return the empty history;
if the bytes of the file do not decode in the text encoding, the
UnicodeDecodeError raised inside json.load is caught by neither branch
of the except clause and propagates to the caller; otherwise return the
parsed JSON value unchanged. -/
def _load_history (fs : FileState) : Except LoadException Json :=
  match fs with
  | FileState.missing => Except.ok emptyHistoryJson
  | FileState.notJson => Except.ok emptyHistoryJson
  | FileState.ioError => Except.ok emptyHistoryJson
  | FileState.undecodable => Except.error LoadException.unicodeDecodeError
  | FileState.json v => Except.ok v

/-- Encoding of one in-memory record as the JSON object json.dump writes
for it: the dict literal of convert_currency, fields in insertion order. -/
def encodeRecord (r : ConversionRecord) : Json :=
  Json.obj
    [ ("base", Json.str r.base)
    , ("target", Json.str r.target)
    , ("amount", Json.num r.amount)
    , ("converted", Json.num r.converted)
    , ("rate", Json.num r.rate)
    , ("timestamp", Json.str r.timestamp) ]

/-- Encoding of the in-memory history dict self.history as JSON: an
object with the single key conversions holding the list of records. -/
def encodeHistory (recs : List ConversionRecord) : Json :=
  Json.obj [("conversions", Json.arr (recs.map encodeRecord))]

/-- CurrencyConverter._save_history (converter_core.py lines 25-31),
success path: json.dump writes the serialized history to the file.
The IOError path of the source leaves the file unchanged and only
prints a warning; the claims about persistence concern the successful
write, which this models. -/
def _save_history (recs : List ConversionRecord) : FileState :=
  FileState.json (encodeHistory recs)

/-- Projection of a JSON value to a string, used when reading a record
field back out of a parsed history file. -/
def Json.asStr : Json → Option String
  | Json.str s => some s
  | _ => none

/-- Projection of a JSON value to a number. -/
def Json.asNum : Json → Option ℚ
  | Json.num q => some q
  | _ => none

/-- Interpretation of a parsed JSON object as a ConversionRecord: each
of the six fields must be present with the expected primitive type.
This is the shallow embedding of reading a persisted record back
field-for-field (show_history and the round-trip property read these
exact keys). -/
def decodeRecord (j : Json) : Option ConversionRecord := do
  match j with
  | Json.obj fs =>
    let base ← (fs.lookup "base").bind Json.asStr
    let target ← (fs.lookup "target").bind Json.asStr
    let amount ← (fs.lookup "amount").bind Json.asNum
    let converted ← (fs.lookup "converted").bind Json.asNum
    let rate ← (fs.lookup "rate").bind Json.asNum
    let timestamp ← (fs.lookup "timestamp").bind Json.asStr
    pure { base := base, target := target, amount := amount,
           converted := converted, rate := rate, timestamp := timestamp }
  | _ => none

/-- Interpretation of a list of parsed JSON values as records, in
order: every element must decode. -/
def decodeRecords : List Json → Option (List ConversionRecord)
  | [] => some []
  | x :: xs => do
    let r ← decodeRecord x
    let rs ← decodeRecords xs
    pure (r :: rs)

/-- Interpretation of a parsed history JSON value as the sequence of
records it stores: the conversions key must hold an array whose every
element decodes as a record. -/
def decodeHistory (j : Json) : Option (List ConversionRecord) :=
  match j with
  | Json.obj fs =>
    match fs.lookup "conversions" with
    | some (Json.arr xs) => decodeRecords xs
    | _ => none
  | _ => none

/-- Environment of one convert_currency call: the currency catalog as
get_available_currencies yields it during the call (none when the
symbols fetch fails; the source caches a success, so it is fixed within
a call), the rate oracle giving what get_exchange_rate would return for
a base/target pair (none on transport error, unsuccessful response, or
absent rate), and the clock supplying successive datetime.now()
timestamps. -/
structure Env where
  catalog : Option (List String)
  fetchRate : String → String → Option ℚ
  clock : ℕ → String

/-- CurrencyConverter.validate_currency (converter_core.py lines 73-78):
fetch the catalog; if it is falsy (None on fetch failure, or an empty
dict), return False; otherwise test key membership. -/
def validate_currency (env : Env) (currency_code : String) : Bool :=
  match env.catalog with
  | none => false
  | some currencies =>
    if currencies.isEmpty then false else currencies.contains currency_code

/-- Body of the JSON response of the latest-rates endpoint, as
get_exchange_rate inspects it: an optional success flag (data.get with
default True) and an optional rates object mapping currency codes to
numbers. -/
structure RateResponse where
  success : Option Bool
  rates : Option (List (String × ℚ))

/-- Outcome of the HTTP request in get_exchange_rate: a
requests.RequestException (transport failure, or raise_for_status on a
bad status) or a parsed JSON body. -/
inductive ApiResult where
  | failure
  | ok (body : RateResponse)

/-- CurrencyConverter.get_exchange_rate (converter_core.py lines 80-100):
on a request exception return None; if the success flag is present and
false return None; if the rates object is present and holds the target,
return that value unchanged (no validation of it); otherwise None. -/
def get_exchange_rate (resp : ApiResult) (target_currency : String) : Option ℚ :=
  match resp with
  | ApiResult.failure => none
  | ApiResult.ok data =>
    if data.success.getD true = false then none
    else
      match data.rates with
      | some rs => rs.lookup target_currency
      | none => none

/-- The capped append of convert_currency (converter_core.py lines
150-153): append the record, then if the length exceeds 10 keep only
the slice of the last 10. -/
def appendCapped (h : List ConversionRecord) (r : ConversionRecord) : List ConversionRecord :=
  let h2 := h ++ [r]
  if h2.length > 10 then h2.drop (h2.length - 10) else h2

/-- Mutable state threaded through one convert_currency call: the
in-memory list self.history at key conversions, the history file on
disk, the number of datetime.now() calls made so far (indexing the
clock), and the number of _save_history calls made so far. -/
structure ConvState where
  history : List ConversionRecord
  file : FileState
  tick : ℕ
  saveCount : ℕ

/-- Observable calls the loop body makes to the rate service. -/
inductive ConvEvent where
  | fetch (base target : String)
deriving DecidableEq, Repr

/-- One iteration of the conversion loop of convert_currency
(converter_core.py lines 120-157) for an already-validated target:
same currency short-circuits with rate 1.0 and touches neither history
nor file and makes no fetch; otherwise the rate is fetched, and on
success the record is appended (capped) and the history saved, while
on failure nothing is recorded or saved. Returns the records appended
to results, the fetches issued, and the new state. -/
def processTarget (env : Env) (base_currency : String) (amount : ℚ)
    (s : ConvState) (target_currency : String) :
    List ConversionRecord × List ConvEvent × ConvState :=
  if base_currency = target_currency then
    ([{ base := base_currency, target := target_currency, amount := amount,
        converted := amount, rate := 1, timestamp := env.clock s.tick }],
     [],
     { s with tick := s.tick + 1 })
  else
    match env.fetchRate base_currency target_currency with
    | none => ([], [ConvEvent.fetch base_currency target_currency], s)
    | some rate =>
      let result : ConversionRecord :=
        { base := base_currency, target := target_currency, amount := amount,
          converted := amount * rate, rate := rate, timestamp := env.clock s.tick }
      let h2 := appendCapped s.history result
      ([result], [ConvEvent.fetch base_currency target_currency],
       { history := h2, file := _save_history h2,
         tick := s.tick + 1, saveCount := s.saveCount + 1 })

/-- The for-loop of convert_currency over the validated target list,
accumulating results and events in iteration order. -/
def convertLoop (env : Env) (base_currency : String) (amount : ℚ) :
    ConvState → List String → List ConversionRecord × List ConvEvent × ConvState
  | s, [] => ([], [], s)
  | s, t :: ts =>
    let step := processTarget env base_currency amount s t
    let rest := convertLoop env base_currency amount step.2.2 ts
    (step.1 ++ rest.1, step.2.1 ++ rest.2.1, rest.2.2)

/-- CurrencyConverter.convert_currency (converter_core.py lines 102-159):
if the base is invalid, return no results and leave the state alone;
otherwise drop the invalid targets (the source computes invalid_targets
and keeps the codes not in it, which is exactly the valid ones; the
early return when all targets are filtered out coincides with running
the loop on an empty list) and run the loop over the remaining targets. -/
def convert_currency (env : Env) (base_currency : String)
    (target_currencies : List String) (amount : ℚ) (s : ConvState) :
    List ConversionRecord × List ConvEvent × ConvState :=
  if validate_currency env base_currency then
    convertLoop env base_currency amount s
      (target_currencies.filter (fun c => validate_currency env c))
  else
    ([], [], s)

/-- A concrete environment for evaluating the operations: a catalog
holding USD and EUR, a rate oracle that always fails, a constant clock. -/
def envNoRates : Env :=
  { catalog := some ["USD", "EUR"]
  , fetchRate := fun _ _ => none
  , clock := fun _ => "T" }

/-- A concrete environment whose rate oracle quotes rate 2 for every
pair. -/
def envRateTwo : Env :=
  { catalog := some ["USD", "EUR"]
  , fetchRate := fun _ _ => some 2
  , clock := fun _ => "T" }

/-- An initial converter state: empty in-memory history, no history
file on disk, no timestamps drawn, no saves performed. -/
def initState : ConvState :=
  { history := [], file := FileState.missing, tick := 0, saveCount := 0 }

/-- The capped append never leaves more than 10 records, whatever the
length of the starting list. -/
theorem appendCapped_length_le (h : List ConversionRecord) (r : ConversionRecord) :
    (appendCapped h r).length ≤ 10 := by
  simp only [appendCapped]
  split
  · simp only [List.length_drop]
    omega
  · next hle =>
    simp only [not_lt] at hle
    exact hle

/-- The capped append equals taking the last ten elements of the
extended list. -/
theorem appendCapped_eq_drop (h : List ConversionRecord) (r : ConversionRecord) :
    appendCapped h r = (h ++ [r]).drop ((h ++ [r]).length - 10) := by
  simp only [appendCapped]
  split
  · rfl
  · next hle =>
    simp only [not_lt] at hle
    have hz : (h ++ [r]).length - 10 = 0 := by omega
    rw [hz, List.drop_zero]

/-- Taking the last ten of a list whose front was already cut to its
last ten gives the same as cutting the whole concatenation. -/
theorem drop_last_ten_append (l rs : List ConversionRecord) :
    (l.drop (l.length - 10) ++ rs).drop ((l.drop (l.length - 10) ++ rs).length - 10) =
      (l ++ rs).drop ((l ++ rs).length - 10) := by
  have hkle : l.length - 10 ≤ l.length := Nat.sub_le _ _
  calc (l.drop (l.length - 10) ++ rs).drop ((l.drop (l.length - 10) ++ rs).length - 10)
      = ((l ++ rs).drop (l.length - 10)).drop
          ((l.drop (l.length - 10) ++ rs).length - 10) := by
        rw [List.drop_append_of_le_length hkle]
    _ = (l ++ rs).drop
          ((l.length - 10) + ((l.drop (l.length - 10) ++ rs).length - 10)) :=
        List.drop_drop _ _ _
    _ = (l ++ rs).drop ((l ++ rs).length - 10) := by
        congr 1
        simp only [List.length_append, List.length_drop]
        omega

/-- Folding the capped append over a sequence of appends, starting from
any in-memory history of length at most ten, retains exactly the last
ten elements of the full sequence. -/
theorem foldl_appendCapped (rs : List ConversionRecord) :
    ∀ h : List ConversionRecord, h.length ≤ 10 →
      rs.foldl appendCapped h = (h ++ rs).drop ((h ++ rs).length - 10) := by
  induction rs with
  | nil =>
    intro h hle
    have hz : h.length - 10 = 0 := by omega
    simp [hz]
  | cons r rs ih =>
    intro h hle
    rw [List.foldl_cons, ih _ (appendCapped_length_le h r), appendCapped_eq_drop,
      drop_last_ten_append]
    simp

/-- C1: after any number of appends to the history via the capped
append of convert_currency (starting from the empty history), the
history has length at most 10 and holds exactly the (up to) 10
most-recently appended records in append order, oldest evicted first.
Instantiating rs at any prefix of the append sequence gives the
statement after each individual append. -/
theorem history_cap_fifo (rs : List ConversionRecord) :
    (rs.foldl appendCapped []).length ≤ 10 ∧
      rs.foldl appendCapped [] = rs.drop (rs.length - 10) := by
  have h := foldl_appendCapped rs [] (by simp)
  simp only [List.nil_append] at h
  refine ⟨?_, h⟩
  rw [h]
  simp only [List.length_drop]
  omega

/-- C4: validate_currency returns true exactly when the code is a key
of the catalog the rate-source client yields; in particular, when the
catalog cannot be fetched (catalog is none) it returns false for every
code, failing closed. -/
theorem validate_currency_iff_catalog_key (env : Env) (code : String) :
    validate_currency env code = true ↔
      ∃ cs, env.catalog = some cs ∧ code ∈ cs := by
  cases hcat : env.catalog with
  | none => simp [validate_currency, hcat]
  | some cs =>
    cases cs with
    | nil => simp [validate_currency, hcat]
    | cons c cs => simp [validate_currency, hcat]

/-- C5: the loader returns the empty history on the failure states the
source handles — file missing, text that does not parse as JSON, an IO
error on open or read — but on a file whose bytes are undecodable in
the text encoding it raises UnicodeDecodeError to the caller, because
the except clause catches only json.JSONDecodeError and IOError and
UnicodeDecodeError subclasses neither: the never-raises claim is the
intent, and the code deviates from it on this input. -/
theorem load_undecodable_raises :
    _load_history FileState.undecodable =
        Except.error LoadException.unicodeDecodeError ∧
      _load_history FileState.missing = Except.ok emptyHistoryJson ∧
      _load_history FileState.notJson = Except.ok emptyHistoryJson ∧
      _load_history FileState.ioError = Except.ok emptyHistoryJson :=
  ⟨rfl, rfl, rfl, rfl⟩

/-- C6 counterexample: a successful response whose rates object maps
the target to zero makes get_exchange_rate return zero, which is not a
positive rate, refuting the claim that every returned rate is
positive. -/
theorem returned_rate_can_be_nonpositive :
    get_exchange_rate
        (ApiResult.ok { success := some true, rates := some [("EUR", (0 : ℚ))] })
        "EUR" = some 0 ∧
      ¬ ((0 : ℚ) > 0) := by
  refine ⟨rfl, ?_⟩
  norm_num

/-- C6 amended: get_exchange_rate returns a value exactly when the
request succeeded, the success flag (defaulted to true when absent) is
not false, and the rates object is present and holds the target; the
returned value is then that entry of the response, unchanged and with
no positivity check. Every failing, unsuccessful, or rate-absent
response yields the failure signal none. -/
theorem get_exchange_rate_some_iff (resp : ApiResult) (target_currency : String) (q : ℚ) :
    get_exchange_rate resp target_currency = some q ↔
      ∃ body, resp = ApiResult.ok body ∧ body.success.getD true = true ∧
        ∃ rs, body.rates = some rs ∧ rs.lookup target_currency = some q := by
  cases resp with
  | failure => simp [get_exchange_rate]
  | ok body =>
    cases hs : body.success.getD true with
    | false => simp [get_exchange_rate, hs]
    | true =>
      cases hr : body.rates with
      | none => simp [get_exchange_rate, hs, hr]
      | some rs => simp [get_exchange_rate, hs, hr]

/-- Decoding inverts encoding on a single record: every field is read
back with its original value. -/
theorem decodeRecord_encodeRecord (r : ConversionRecord) :
    decodeRecord (encodeRecord r) = some r := rfl

/-- Decoding inverts encoding on a whole history. -/
theorem decodeHistory_encodeHistory (recs : List ConversionRecord) :
    decodeHistory (encodeHistory recs) = some recs := by
  have hmap : ∀ rs : List ConversionRecord,
      decodeRecords (rs.map encodeRecord) = some rs := by
    intro rs
    induction rs with
    | nil => rfl
    | cons r rs ih => simp [decodeRecords, decodeRecord_encodeRecord, ih]
  simp [decodeHistory, encodeHistory, hmap]

/-- C7: persisting an in-memory history with _save_history and then
reloading the file with _load_history (the write having succeeded)
raises nothing and yields exactly the written JSON value, which decodes
to the identical sequence of records, field-for-field. -/
theorem save_load_roundtrip (h : List ConversionRecord) :
    _load_history (_save_history h) = Except.ok (encodeHistory h) ∧
      decodeHistory (encodeHistory h) = some h :=
  ⟨rfl, decodeHistory_encodeHistory h⟩

/-- C9: the loader applies no truncation: a readable, parseable file is
returned exactly as stored, and a file holding the encoding of any n
records loads back as all n records in stored order — for n above 10 as
well, since the 10-entry cap lives only in the append path of
convert_currency. -/
theorem load_no_truncation (v : Json) (recs : List ConversionRecord) :
    _load_history (FileState.json v) = Except.ok v ∧
      decodeHistory (encodeHistory recs) = some recs :=
  ⟨rfl, decodeHistory_encodeHistory recs⟩

/-- C10: a same-currency target appends its record only to the returned
result list: no fetch is issued for it, and the in-memory history, the
history file, and the number of saves are all left unchanged by that
loop iteration. -/
theorem same_currency_leaves_history_unchanged (env : Env) (base_currency : String)
    (amount : ℚ) (s : ConvState) :
    (processTarget env base_currency amount s base_currency).1 =
        [{ base := base_currency, target := base_currency, amount := amount,
           converted := amount, rate := 1, timestamp := env.clock s.tick }] ∧
      (processTarget env base_currency amount s base_currency).2.1 = [] ∧
      (processTarget env base_currency amount s base_currency).2.2.history = s.history ∧
      (processTarget env base_currency amount s base_currency).2.2.file = s.file ∧
      (processTarget env base_currency amount s base_currency).2.2.saveCount = s.saveCount := by
  simp [processTarget]

/-- C3: for a valid base converted to itself, convert_currency returns
exactly one record for that target, carrying rate 1 and a converted
amount equal to the input amount, and issues no rate fetch. -/
theorem same_currency_single_record (env : Env) (base_currency : String)
    (amount : ℚ) (s : ConvState)
    (hvalid : validate_currency env base_currency = true) :
    convert_currency env base_currency [base_currency] amount s =
      ([{ base := base_currency, target := base_currency, amount := amount,
          converted := amount, rate := 1, timestamp := env.clock s.tick }],
       [], { s with tick := s.tick + 1 }) := by
  simp [convert_currency, hvalid, convertLoop, processTarget]

/-- Witness for C3 at a concrete input: USD is valid in the concrete
catalog and converting 5 USD to USD yields the single rate-1 record
with no fetch event. -/
theorem same_currency_single_record_witness :
    validate_currency envNoRates "USD" = true ∧
      convert_currency envNoRates "USD" ["USD"] 5 initState =
        ([{ base := "USD", target := "USD", amount := 5, converted := 5,
            rate := 1, timestamp := "T" }],
         [], { history := [], file := FileState.missing, tick := 1, saveCount := 0 }) :=
  ⟨by decide, same_currency_single_record envNoRates "USD" 5 initState (by decide)⟩

/-- C2 counterexample: with the concrete catalog, converting 5 USD to
USD is a successful conversion — it returns one record — yet the
in-memory history is not appended to, no save is performed, and the
history file is untouched, refuting the claim that every successful
conversion (including same-currency ones) is appended and persisted. -/
theorem successful_conversion_not_always_persisted :
    (convert_currency envNoRates "USD" ["USD"] 5 initState).1.length = 1 ∧
      (convert_currency envNoRates "USD" ["USD"] 5 initState).2.2.history = [] ∧
      (convert_currency envNoRates "USD" ["USD"] 5 initState).2.2.saveCount = 0 ∧
      (convert_currency envNoRates "USD" ["USD"] 5 initState).2.2.file = FileState.missing :=
  ⟨rfl, rfl, rfl, rfl⟩

/-- C2 amended: every successful rate-fetched conversion — a target
distinct from the base for which the oracle returns a rate — appends
its record to the in-memory history under the 10-entry cap and saves
the history to the file synchronously, in the same loop iteration. -/
theorem fetched_conversion_appended_and_saved (env : Env)
    (base_currency target_currency : String) (amount rate : ℚ) (s : ConvState)
    (hne : base_currency ≠ target_currency)
    (hr : env.fetchRate base_currency target_currency = some rate) :
    processTarget env base_currency amount s target_currency =
      ([{ base := base_currency, target := target_currency, amount := amount,
          converted := amount * rate, rate := rate, timestamp := env.clock s.tick }],
       [ConvEvent.fetch base_currency target_currency],
       { history := appendCapped s.history
           { base := base_currency, target := target_currency, amount := amount,
             converted := amount * rate, rate := rate, timestamp := env.clock s.tick },
         file := _save_history (appendCapped s.history
           { base := base_currency, target := target_currency, amount := amount,
             converted := amount * rate, rate := rate, timestamp := env.clock s.tick }),
         tick := s.tick + 1, saveCount := s.saveCount + 1 }) := by
  unfold processTarget
  rw [if_neg hne, hr]

/-- Witness for the amended C2 at a concrete input: converting 5 USD to
EUR at the quoted rate 2 returns the record, appends it to the history,
and saves the one-record history to the file. -/
theorem fetched_conversion_appended_and_saved_witness :
    ("USD" : String) ≠ "EUR" ∧
      envRateTwo.fetchRate "USD" "EUR" = some 2 ∧
      processTarget envRateTwo "USD" 5 initState "EUR" =
        ([{ base := "USD", target := "EUR", amount := 5, converted := 5 * 2,
            rate := 2, timestamp := "T" }],
         [ConvEvent.fetch "USD" "EUR"],
         { history := [{ base := "USD", target := "EUR", amount := 5, converted := 5 * 2,
                         rate := 2, timestamp := "T" }],
           file := _save_history [{ base := "USD", target := "EUR", amount := 5,
                                    converted := 5 * 2, rate := 2, timestamp := "T" }],
           tick := 1, saveCount := 1 }) :=
  ⟨by decide, rfl,
    fetched_conversion_appended_and_saved envRateTwo "USD" "EUR" 5 2 initState (by decide) rfl⟩

/-- The conversion loop over a concatenation of target lists is the
loop over the first part followed by the loop over the second from the
resulting state, with results and events concatenated in order. -/
theorem convertLoop_append (env : Env) (b : String) (a : ℚ) (s : ConvState)
    (xs ys : List String) :
    convertLoop env b a s (xs ++ ys) =
      ((convertLoop env b a s xs).1 ++
          (convertLoop env b a (convertLoop env b a s xs).2.2 ys).1,
       (convertLoop env b a s xs).2.1 ++
          (convertLoop env b a (convertLoop env b a s xs).2.2 ys).2.1,
       (convertLoop env b a (convertLoop env b a s xs).2.2 ys).2.2) := by
  induction xs generalizing s with
  | nil => simp [convertLoop]
  | cons t ts ih => simp [convertLoop, ih]

/-- Dropping from the target list one target whose rate fetch fails
changes neither the results nor the final state of the loop. -/
theorem convertLoop_skip_failed (env : Env) (b : String) (a : ℚ) (s : ConvState)
    (xs ys : List String) (tf : String) (hne : b ≠ tf)
    (hfail : env.fetchRate b tf = none) :
    (convertLoop env b a s (xs ++ tf :: ys)).1 =
        (convertLoop env b a s (xs ++ ys)).1 ∧
      (convertLoop env b a s (xs ++ tf :: ys)).2.2 =
        (convertLoop env b a s (xs ++ ys)).2.2 := by
  have hstep : ∀ s2 : ConvState,
      processTarget env b a s2 tf = ([], [ConvEvent.fetch b tf], s2) := by
    intro s2
    unfold processTarget
    rw [if_neg hne, hfail]
  rw [convertLoop_append, convertLoop_append]
  refine ⟨?_, ?_⟩ <;> simp [convertLoop, hstep]

/-- C8: in a convert_currency call with a valid base, a valid target
whose rate fetch fails produces no record, leaves the history and the
file exactly as if the target had not been in the list, and the
remaining targets are still processed in input order: the call with
that target equals the call without it in both results and final
state. -/
theorem failed_fetch_is_localized (env : Env) (base_currency : String) (amount : ℚ)
    (s : ConvState) (ts1 ts2 : List String) (tf : String)
    (hbase : validate_currency env base_currency = true)
    (htf : validate_currency env tf = true)
    (hne : base_currency ≠ tf)
    (hfail : env.fetchRate base_currency tf = none) :
    (convert_currency env base_currency (ts1 ++ tf :: ts2) amount s).1 =
        (convert_currency env base_currency (ts1 ++ ts2) amount s).1 ∧
      (convert_currency env base_currency (ts1 ++ tf :: ts2) amount s).2.2 =
        (convert_currency env base_currency (ts1 ++ ts2) amount s).2.2 := by
  have h := convertLoop_skip_failed env base_currency amount s
      (ts1.filter (fun c => validate_currency env c))
      (ts2.filter (fun c => validate_currency env c)) tf hne hfail
  simp only [convert_currency, hbase, if_true, List.filter_append, List.filter_cons, htf,
    if_pos] at h ⊢
  exact h

/-- Witness for C8 at a concrete input: with the oracle that never
returns a rate, converting USD to the single valid target EUR yields
the same results and final state as converting to no targets at all. -/
theorem failed_fetch_is_localized_witness :
    validate_currency envNoRates "USD" = true ∧
      validate_currency envNoRates "EUR" = true ∧
      ("USD" : String) ≠ "EUR" ∧
      envNoRates.fetchRate "USD" "EUR" = none ∧
      ((convert_currency envNoRates "USD" ([] ++ "EUR" :: []) 5 initState).1 =
          (convert_currency envNoRates "USD" ([] ++ []) 5 initState).1 ∧
        (convert_currency envNoRates "USD" ([] ++ "EUR" :: []) 5 initState).2.2 =
          (convert_currency envNoRates "USD" ([] ++ []) 5 initState).2.2) :=
  ⟨by decide, by decide, by decide, rfl,
    failed_fetch_is_localized envNoRates "USD" 5 initState [] [] "EUR"
      (by decide) (by decide) (by decide) rfl⟩
